import Mathlib

/-!
Verification of the note-taking backend in src/server.js: a shallow
embedding of the account directory (register / login handlers) and the
note store (create, list, search, update, trash, empty-trash, and the
scheduled purge sweep), together with theorems about the lifecycle and
owner-scoping properties of those operations.

The document store is modelled as a list of records; `findOneAndUpdate`
updates the first record matching a filter, `deleteMany` is a filter.
MongoDB field semantics that matter here are kept: absent/null fields are
`Option.none`, an equality filter on a concrete value does not match
`none`, and a `$lte` range filter never matches `none`. Time is an
integer count of milliseconds.
-/

namespace Apsona

/-- User record stored by the account directory (userSchema in
src/server.js). The username is optional because the handler inserts
whatever the request body carried, including an absent field. -/
structure User where
  id : Nat
  username : Option String
  password : String
deriving DecidableEq

/-- Abstract credential-hashing collaborator (bcrypt in src/server.js):
a hash function and a verifier, with the contract that verifying a
password against its own hash succeeds. -/
structure HashScheme where
  hash : String → String
  verify : String → String → Bool
  verify_hash : ∀ p, verify p (hash p) = true

/-- A concrete trivial hashing scheme, used to instantiate closed
corollaries. -/
def idScheme : HashScheme where
  hash := fun p => p
  verify := fun p h => p == h
  verify_hash := by simp

/-- Error kinds surfaced by the HTTP handlers of src/server.js. -/
inductive ApiError where
  | duplicateUsername
  | invalidCredentials
  | notFound
  | validationError
  | hashInputError
deriving DecidableEq

/-- POST /api/register (src/server.js lines 62-73): hash the password,
then insert the new user. A missing password makes the hashing call throw
before any record is written; the unique index on username rejects a
duplicate (two absent usernames collide like equal values under a
non-sparse unique index). The handler performs no other validation. -/
def register (S : HashScheme) (username password : Option String)
    (db : List User) : Except ApiError (List User × User) :=
  match password with
  | none => .error .hashInputError
  | some p =>
    let u : User := { id := db.length, username := username, password := S.hash p }
    if db.any (fun v => decide (v.username = username)) then
      .error .duplicateUsername
    else
      .ok (db ++ [u], u)

/-- POST /api/login (src/server.js lines 76-90): find the user by exact
username, then verify the password against the stored hash; both failure
paths return the same invalid-credentials error; on success the identity key of the
user is returned. -/
def authenticate (S : HashScheme) (username password : String)
    (db : List User) : Except ApiError Nat :=
  match db.find? (fun u => decide (u.username = some username)) with
  | none => .error .invalidCredentials
  | some u =>
    if S.verify password u.password then .ok u.id
    else .error .invalidCredentials

/-- Note record (noteSchema in src/server.js). Every client-supplied
field is optional, matching the schema where fields may be absent or
null; `createdAt` is server-assigned at creation. -/
structure Note where
  id : Nat
  userId : Nat
  title : Option String
  content : Option String
  tags : Option (List String)
  color : Option String
  isArchived : Option Bool
  isTrashed : Option Bool
  deletedAt : Option Int
  createdAt : Int
  reminder : Option Int
deriving DecidableEq

/-- POST /api/notes (src/server.js lines 93-108): insert a new note with
`isArchived = false`, `isTrashed = false`, no `deletedAt`, and
server-assigned `createdAt`. -/
def create (ownerId : Nat) (title content : Option String)
    (tags : Option (List String)) (color : Option String)
    (reminder : Option Int) (now : Int) (freshId : Nat)
    (db : List Note) : List Note × Note :=
  let n : Note :=
    { id := freshId
      userId := ownerId
      title := title
      content := content
      tags := tags
      color := color
      isArchived := some false
      isTrashed := some false
      deletedAt := none
      createdAt := now
      reminder := reminder }
  (db ++ [n], n)

/-- Whether `needle` is an initial segment of `hay`. -/
def listStarts : List Char → List Char → Bool
  | [], _ => true
  | _ :: _, [] => false
  | a :: as, b :: bs => a == b && listStarts as bs

/-- Whether `needle` occurs contiguously anywhere in `hay`. -/
def hasSub (needle : List Char) : List Char → Bool
  | [] => listStarts needle []
  | c :: rest => listStarts needle (c :: rest) || hasSub needle rest

/-- Case-insensitive substring match: the model of the
regex-with-option-i filter in the search handler. A null or absent field
never matches a regex filter in MongoDB. -/
def regexMatch (q : String) : Option String → Bool
  | none => false
  | some s => hasSub q.toLower.toList s.toLower.toList

/-- MongoDB array-membership filter `tags: tag`: matches when the array
contains the tag; a null or absent array does not match. -/
def tagsHave (tag : String) : Option (List String) → Bool
  | none => false
  | some ts => ts.contains tag

/-- GET /api/notes (src/server.js lines 111-114): notes of the owner with
`isTrashed: false`. -/
def listActive (ownerId : Nat) (db : List Note) : List Note :=
  db.filter (fun n => decide (n.userId = ownerId ∧ n.isTrashed = some false))

/-- GET /api/notes/search (src/server.js lines 117-128): untrashed
notes of the owner whose title or content matches the query. -/
def search (ownerId : Nat) (q : String) (db : List Note) : List Note :=
  db.filter (fun n =>
    decide (n.userId = ownerId ∧ n.isTrashed = some false) &&
    (regexMatch q n.title || regexMatch q n.content))

/-- GET /api/notes/archived (src/server.js lines 131-134): notes of the owner
with `isArchived: true`; note that the filter says nothing about
`isTrashed`. -/
def listArchived (ownerId : Nat) (db : List Note) : List Note :=
  db.filter (fun n => decide (n.userId = ownerId ∧ n.isArchived = some true))

/-- GET /api/notes/tag/:tag (src/server.js lines 137-145): untrashed
notes of the owner whose tag array contains the tag. -/
def listByTag (ownerId : Nat) (tag : String) (db : List Note) : List Note :=
  db.filter (fun n =>
    decide (n.userId = ownerId ∧ n.isTrashed = some false) && tagsHave tag n.tags)

/-- GET /api/notes/trashed (src/server.js lines 148-151): notes of the owner
with `isTrashed: true`. -/
def listTrashed (ownerId : Nat) (db : List Note) : List Note :=
  db.filter (fun n => decide (n.userId = ownerId ∧ n.isTrashed = some true))

/-- The seven client-settable fields of the PUT /api/notes/:id body, each
possibly absent. -/
structure UpdateFields where
  title : Option String
  content : Option String
  tags : Option (List String)
  color : Option String
  reminder : Option Int
  isArchived : Option Bool
  isTrashed : Option Bool
deriving DecidableEq

/-- The write performed by the update handler: every one of the seven
fields is overwritten with the request value (absent request fields are
written as absent); `id`, `userId`, `deletedAt`, `createdAt` are
untouched. -/
def applyUpdate (f : UpdateFields) (n : Note) : Note :=
  { n with
    title := f.title
    content := f.content
    tags := f.tags
    color := f.color
    reminder := f.reminder
    isArchived := f.isArchived
    isTrashed := f.isTrashed }

/-- Model of the atomic findOneAndUpdate of the store: update the first record
matching the filter and return the updated record together with the new
store contents, or nothing when no record matches. -/
def findOneAndUpdate (pred : Note → Bool) (upd : Note → Note) :
    List Note → Option (Note × List Note)
  | [] => none
  | n :: rest =>
    if pred n then some (upd n, upd n :: rest)
    else (findOneAndUpdate pred upd rest).map (fun p => (p.1, n :: p.2))

/-- PUT /api/notes/:id (src/server.js lines 154-167): findOneAndUpdate
scoped to owner and id, overwriting the seven body fields; no match is a
not-found error. -/
def update (ownerId noteId : Nat) (f : UpdateFields) (db : List Note) :
    Except ApiError (Note × List Note) :=
  match findOneAndUpdate (fun n => decide (n.id = noteId ∧ n.userId = ownerId))
      (applyUpdate f) db with
  | none => .error .notFound
  | some p => .ok p

/-- DELETE /api/notes/:id (src/server.js lines 170-181): findOneAndUpdate
scoped to owner and id, setting `isTrashed: true` and `deletedAt: now`;
no match is a not-found error. -/
def trash (ownerId noteId : Nat) (now : Int) (db : List Note) :
    Except ApiError (Note × List Note) :=
  match findOneAndUpdate (fun n => decide (n.id = noteId ∧ n.userId = ownerId))
      (fun n => { n with isTrashed := some true
                         deletedAt := some now }) db with
  | none => .error .notFound
  | some p => .ok p

/-- DELETE /api/notes/trashed/empty (src/server.js lines 184-187):
deleteMany of the notes of the owner with `isTrashed: true`. -/
def emptyTrash (ownerId : Nat) (db : List Note) : List Note :=
  db.filter (fun n => !(decide (n.userId = ownerId ∧ n.isTrashed = some true)))

/-- Milliseconds per day. -/
def dayMs : Int := 86400000

/-- MongoDB `$lte` range filter on a nullable field: never matches an
absent or null value. -/
def lteOpt : Option Int → Int → Bool
  | none, _ => false
  | some x, bound => decide (x ≤ bound)

/-- The cron callback (src/server.js lines 201-210): deleteMany, across
all owners, of notes with `isTrashed: true` and `deletedAt` at most
thirty days before now. -/
def purgeExpiredTrash (now : Int) (db : List Note) : List Note :=
  db.filter (fun n =>
    !(decide (n.isTrashed = some true) && lteOpt n.deletedAt (now - 30 * dayMs)))

/-! ### Helper lemmas about findOneAndUpdate -/

theorem findOneAndUpdate_eq_none {pred : Note → Bool} {upd : Note → Note}
    {db : List Note} (h : ∀ n ∈ db, pred n = false) :
    findOneAndUpdate pred upd db = none := by
  induction db with
  | nil => rfl
  | cons n rest ih =>
    have hn : pred n = false := h n (List.mem_cons_self n rest)
    have hrest : ∀ m ∈ rest, pred m = false := fun m hm => h m (List.mem_cons_of_mem n hm)
    simp [findOneAndUpdate, hn, ih hrest]

theorem findOneAndUpdate_some {pred : Note → Bool} {upd : Note → Note}
    {db db' : List Note} {m : Note}
    (h : findOneAndUpdate pred upd db = some (m, db')) :
    ∃ n0 ∈ db, pred n0 = true ∧ m = upd n0 ∧ m ∈ db' := by
  induction db generalizing db' with
  | nil => simp [findOneAndUpdate] at h
  | cons n rest ih =>
    by_cases hn : pred n = true
    · rw [findOneAndUpdate, if_pos hn] at h
      simp only [Option.some.injEq, Prod.mk.injEq] at h
      exact ⟨n, List.mem_cons_self n rest, hn, h.1.symm, by simp [← h.2, h.1]⟩
    · rw [findOneAndUpdate, if_neg hn] at h
      rcases hfou : findOneAndUpdate pred upd rest with _ | p
      · rw [hfou] at h
        exact absurd h (by simp)
      · obtain ⟨m0, rest0⟩ := p
        rw [hfou] at h
        simp only [Option.map_some', Option.some.injEq, Prod.mk.injEq] at h
        obtain ⟨hm0, hdb0⟩ := h
        subst hm0
        obtain ⟨n0, hn0, hp, hmeq, hmem⟩ := ih hfou
        exact ⟨n0, List.mem_cons_of_mem n hn0, hp, hmeq, by
          rw [← hdb0]
          exact List.mem_cons_of_mem n hmem⟩

theorem findOneAndUpdate_map {α : Type} (g : Note → α) {pred : Note → Bool}
    {upd : Note → Note} (hg : ∀ n, g (upd n) = g n)
    {db db' : List Note} {m : Note}
    (h : findOneAndUpdate pred upd db = some (m, db')) :
    db'.map g = db.map g := by
  induction db generalizing db' with
  | nil => simp [findOneAndUpdate] at h
  | cons n rest ih =>
    by_cases hn : pred n = true
    · rw [findOneAndUpdate, if_pos hn] at h
      simp only [Option.some.injEq, Prod.mk.injEq] at h
      simp [← h.2, hg]
    · rw [findOneAndUpdate, if_neg hn] at h
      rcases hfou : findOneAndUpdate pred upd rest with _ | p
      · rw [hfou] at h
        exact absurd h (by simp)
      · obtain ⟨m0, rest0⟩ := p
        rw [hfou] at h
        simp only [Option.map_some', Option.some.injEq, Prod.mk.injEq] at h
        obtain ⟨hm0, hdb0⟩ := h
        subst hm0
        simp [← hdb0, ih hfou]

theorem lteOpt_eq_true {d : Option Int} {bound : Int} :
    lteOpt d bound = true ↔ ∃ x, d = some x ∧ x ≤ bound := by
  cases d <;> simp [lteOpt]

theorem lteOpt_eq_false {d : Option Int} {bound : Int} :
    lteOpt d bound = false ↔ ∀ x, d = some x → bound < x := by
  cases d <;> simp [lteOpt]

theorem purge_mem (now : Int) (db : List Note) (n : Note) :
    n ∈ purgeExpiredTrash now db ↔
      n ∈ db ∧ ¬(n.isTrashed = some true ∧
        ∃ d, n.deletedAt = some d ∧ d ≤ now - 30 * dayMs) := by
  rw [purgeExpiredTrash, List.mem_filter]
  simp [lteOpt_eq_true, lteOpt_eq_false, Bool.and_eq_true, not_and]
  tauto

theorem update_ok {ownerId noteId : Nat} {f : UpdateFields}
    {db db2 : List Note} {m : Note}
    (h : update ownerId noteId f db = .ok (m, db2)) :
    ∃ n0 ∈ db, n0.id = noteId ∧ n0.userId = ownerId ∧
      m = applyUpdate f n0 ∧ m ∈ db2 := by
  rw [update] at h
  rcases hfou : findOneAndUpdate
      (fun n => decide (n.id = noteId ∧ n.userId = ownerId))
      (applyUpdate f) db with _ | p
  · rw [hfou] at h
    exact absurd h (by simp)
  · obtain ⟨m0, db0⟩ := p
    rw [hfou] at h
    simp only [Except.ok.injEq, Prod.mk.injEq] at h
    obtain ⟨rfl, rfl⟩ := h
    obtain ⟨n0, hn0, hp, hm, hmem⟩ := findOneAndUpdate_some hfou
    rw [decide_eq_true_eq] at hp
    exact ⟨n0, hn0, hp.1, hp.2, hm, hmem⟩

theorem trash_ok {ownerId noteId : Nat} {now : Int} {db db2 : List Note}
    {m : Note} (h : trash ownerId noteId now db = .ok (m, db2)) :
    ∃ n0 ∈ db, n0.id = noteId ∧ n0.userId = ownerId ∧
      m = { n0 with isTrashed := some true, deletedAt := some now } ∧
      m ∈ db2 := by
  rw [trash] at h
  rcases hfou : findOneAndUpdate
      (fun n => decide (n.id = noteId ∧ n.userId = ownerId))
      (fun n => { n with isTrashed := some true
                         deletedAt := some now }) db with _ | p
  · rw [hfou] at h
    exact absurd h (by simp)
  · obtain ⟨m0, db0⟩ := p
    rw [hfou] at h
    simp only [Except.ok.injEq, Prod.mk.injEq] at h
    obtain ⟨rfl, rfl⟩ := h
    obtain ⟨n0, hn0, hp, hm, hmem⟩ := findOneAndUpdate_some hfou
    rw [decide_eq_true_eq] at hp
    exact ⟨n0, hn0, hp.1, hp.2, hm, hmem⟩

theorem update_preserves_deletedAt {ownerId noteId : Nat} {f : UpdateFields}
    {db db2 : List Note} {m : Note}
    (h : update ownerId noteId f db = .ok (m, db2)) :
    db2.map Note.deletedAt = db.map Note.deletedAt := by
  rw [update] at h
  rcases hfou : findOneAndUpdate
      (fun n => decide (n.id = noteId ∧ n.userId = ownerId))
      (applyUpdate f) db with _ | p
  · rw [hfou] at h
    exact absurd h (by simp)
  · obtain ⟨m0, db0⟩ := p
    rw [hfou] at h
    simp only [Except.ok.injEq, Prod.mk.injEq] at h
    obtain ⟨rfl, rfl⟩ := h
    refine findOneAndUpdate_map Note.deletedAt ?_ hfou
    intro n
    rfl

theorem find?_append_none {α : Type} {p : α → Bool} {l1 l2 : List α}
    (h : l1.find? p = none) : (l1 ++ l2).find? p = l2.find? p := by
  induction l1 with
  | nil => rfl
  | cons a t ih =>
    by_cases hpa : p a = true
    · rw [List.find?_cons_of_pos t hpa] at h
      exact absurd h (by simp)
    · rw [List.find?_cons_of_neg t hpa] at h
      rw [List.cons_append, List.find?_cons_of_neg (t ++ l2) hpa]
      exact ih h

/-! ### Concrete records used by the closed corollaries -/

/-- An active note owned by user 0. -/
def note0 : Note :=
  { id := 1
    userId := 0
    title := some "A"
    content := some "x"
    tags := some ["work"]
    color := none
    isArchived := some false
    isTrashed := some false
    deletedAt := none
    createdAt := 0
    reminder := none }

/-- A note of user 0 trashed twenty-nine days before time `30 * dayMs`. -/
def note29 : Note :=
  { id := 2
    userId := 0
    title := none
    content := none
    tags := none
    color := none
    isArchived := some false
    isTrashed := some true
    deletedAt := some dayMs
    createdAt := 0
    reminder := none }

/-- A note of user 7 trashed exactly thirty days before time `30 * dayMs`. -/
def note30 : Note :=
  { id := 3
    userId := 7
    title := none
    content := none
    tags := none
    color := none
    isArchived := some false
    isTrashed := some true
    deletedAt := some 0
    createdAt := 0
    reminder := none }

/-- A note of user 0 that is both archived and trashed. -/
def noteAT : Note :=
  { id := 4
    userId := 0
    title := none
    content := none
    tags := none
    color := none
    isArchived := some true
    isTrashed := some true
    deletedAt := some 0
    createdAt := 0
    reminder := none }

/-- An update request with every field omitted. -/
def emptyFields : UpdateFields :=
  { title := none
    content := none
    tags := none
    color := none
    reminder := none
    isArchived := none
    isTrashed := none }

/-- note0 after the dedicated trash operation at time 5. -/
def note0T : Note := { note0 with isTrashed := some true, deletedAt := some 5 }

/-- note0 after an update whose request omitted every field. -/
def note0U : Note := applyUpdate emptyFields note0

/-- An update request that only sets the trashed flag. -/
def trashFields : UpdateFields := { emptyFields with isTrashed := some true }

/-- note0 after an update request that only sets the trashed flag. -/
def note0X : Note := applyUpdate trashFields note0

/-- A registered user. -/
def user0 : User := { id := 0, username := some "alice", password := "pw" }

/-! ### Claims -/

/-- Claim C1: owner scoping. For a note N owned by user A and a distinct
caller B, none of listActive, search, listByTag, listTrashed invoked as B
returns N; and, since ids are unique in the store (every record sharing
the id of N belongs to A), update and trash invoked by B on that id fail with the
not-found error instead of silently succeeding. -/
theorem c1_cross_user_isolation (A B : Nat) (hAB : B ≠ A) (db : List Note)
    (N : Note) (hN : N.userId = A)
    (hid : ∀ m ∈ db, m.id = N.id → m.userId = A)
    (q tag : String) (f : UpdateFields) (now : Int) :
    N ∉ listActive B db ∧ N ∉ search B q db ∧ N ∉ listByTag B tag db ∧
    N ∉ listTrashed B db ∧
    update B N.id f db = .error .notFound ∧
    trash B N.id now db = .error .notFound := by
  have hpred : ∀ m ∈ db, (decide (m.id = N.id ∧ m.userId = B)) = false := by
    intro m hm
    simp only [decide_eq_false_iff_not]
    rintro ⟨h1, h2⟩
    exact hAB (h2 ▸ hid m hm h1)
  refine ⟨?_, ?_, ?_, ?_, ?_, ?_⟩
  · intro hmem
    rw [listActive, List.mem_filter, decide_eq_true_eq] at hmem
    exact hAB (hmem.2.1 ▸ hN)
  · intro hmem
    simp only [search, List.mem_filter, Bool.and_eq_true, decide_eq_true_eq] at hmem
    exact hAB (hmem.2.1.1 ▸ hN)
  · intro hmem
    simp only [listByTag, List.mem_filter, Bool.and_eq_true, decide_eq_true_eq] at hmem
    exact hAB (hmem.2.1.1 ▸ hN)
  · intro hmem
    rw [listTrashed, List.mem_filter, decide_eq_true_eq] at hmem
    exact hAB (hmem.2.1 ▸ hN)
  · rw [update, findOneAndUpdate_eq_none hpred]
  · rw [trash, findOneAndUpdate_eq_none hpred]

/-- Closed corollary of C1 at a concrete store. -/
theorem c1_cross_user_isolation_witness :
    note0 ∉ listActive 1 [note0] ∧ note0 ∉ search 1 "x" [note0] ∧
    note0 ∉ listByTag 1 "work" [note0] ∧ note0 ∉ listTrashed 1 [note0] ∧
    update 1 note0.id emptyFields [note0] = .error .notFound ∧
    trash 1 note0.id 99 [note0] = .error .notFound :=
  c1_cross_user_isolation 0 1 (by decide) [note0] note0 rfl
    (by decide) "x" "work" emptyFields 99

/-- Claim C2: the purge sweep deletes a note iff it is trashed and its
trashed-at stamp is at least thirty days old; the characterisation has no
owner in it (the sweep is global). A note trashed twenty-nine days before
now survives; one trashed exactly thirty days before now is removed. -/
theorem c2_purge_thirty_days (now : Int) (db : List Note) (n : Note) :
    (n ∈ purgeExpiredTrash now db ↔
      n ∈ db ∧ ¬(n.isTrashed = some true ∧
        ∃ d, n.deletedAt = some d ∧ d ≤ now - 30 * dayMs)) ∧
    (n ∈ db → n.isTrashed = some true →
      n.deletedAt = some (now - 29 * dayMs) → n ∈ purgeExpiredTrash now db) ∧
    (n.isTrashed = some true → n.deletedAt = some (now - 30 * dayMs) →
      n ∉ purgeExpiredTrash now db) := by
  refine ⟨purge_mem now db n, ?_, ?_⟩
  · intro hdb ht hd
    rw [purge_mem]
    refine ⟨hdb, ?_⟩
    rintro ⟨-, d, hd2, hle⟩
    rw [hd] at hd2
    obtain rfl : now - 29 * dayMs = d := Option.some.inj hd2
    simp only [dayMs] at hle
    omega
  · intro ht hd hmem
    rw [purge_mem] at hmem
    exact hmem.2 ⟨ht, now - 30 * dayMs, hd, le_refl _⟩

/-- Closed corollary of C2: with now at day thirty, the note trashed on
day one (twenty-nine days old) survives and the note trashed on day zero
(exactly thirty days old) is deleted, across two different owners. -/
theorem c2_purge_thirty_days_witness :
    note29 ∈ purgeExpiredTrash (30 * dayMs) [note29, note30] ∧
    note30 ∉ purgeExpiredTrash (30 * dayMs) [note29, note30] :=
  ⟨(c2_purge_thirty_days (30 * dayMs) [note29, note30] note29).2.1
      (by decide) (by decide) (by decide),
    (c2_purge_thirty_days (30 * dayMs) [note29, note30] note30).2.2
      (by decide) (by decide)⟩

/-- Claim C5: emptyTrash removes exactly the trashed notes of the owner — a
note survives iff it is not both owned by the caller and trashed — and it
is idempotent, leaving the store untouched (still succeeding) when the
owner has nothing in the trash. -/
theorem c5_emptyTrash_exact (ownerId : Nat) (db : List Note) (n : Note) :
    (n ∈ emptyTrash ownerId db ↔
      n ∈ db ∧ ¬(n.userId = ownerId ∧ n.isTrashed = some true)) ∧
    emptyTrash ownerId (emptyTrash ownerId db) = emptyTrash ownerId db ∧
    ((∀ m ∈ db, ¬(m.userId = ownerId ∧ m.isTrashed = some true)) →
      emptyTrash ownerId db = db) := by
  refine ⟨?_, ?_, ?_⟩
  · rw [emptyTrash, List.mem_filter]
    simp [not_and]
    tauto
  · rw [emptyTrash, emptyTrash, List.filter_filter]
    congr 1
    funext m
    exact Bool.and_self _
  · intro h
    rw [emptyTrash, List.filter_eq_self]
    intro m hm
    simp only [Bool.not_eq_true', decide_eq_false_iff_not]
    exact h m hm

/-- Closed corollary of C5: emptying the trash of a user with only an
active note keeps the store unchanged; the trashed note of the other user is
kept as well. -/
theorem c5_emptyTrash_exact_witness :
    emptyTrash 0 [note0, note30] = [note0, note30] :=
  (c5_emptyTrash_exact 0 [note0, note30] note0).2.2 (by decide)

/-- Claim C6: listArchived returns exactly the notes of the owner with the
archived flag set, with no condition on the trashed flag; in particular a
note that is both archived and trashed is returned. -/
theorem c6_listArchived_includes_trashed (ownerId : Nat) (db : List Note)
    (n : Note) :
    (n ∈ listArchived ownerId db ↔
      n ∈ db ∧ n.userId = ownerId ∧ n.isArchived = some true) ∧
    (n ∈ db → n.userId = ownerId → n.isArchived = some true →
      n.isTrashed = some true → n ∈ listArchived ownerId db) := by
  constructor
  · rw [listArchived, List.mem_filter]
    simp
  · intro hdb hu ha _
    rw [listArchived, List.mem_filter, decide_eq_true_eq]
    exact ⟨hdb, hu, ha⟩

/-- Closed corollary of C6: an archived-and-trashed note is listed. -/
theorem c6_listArchived_includes_trashed_witness :
    noteAT ∈ listArchived 0 [noteAT] :=
  (c6_listArchived_includes_trashed 0 [noteAT] noteAT).2
    (by decide) rfl rfl rfl

/-- Claim C3: trash sets the trashed flag and a non-null trashed-at stamp
equal to now, and it is the only operation writing that stamp: create
initializes it absent, update leaves every stored stamp unchanged
(whatever the request fields are, including trashed set to false), and
emptyTrash and the purge sweep only remove records. -/
theorem c3_trashedAt_owned_by_trash (ownerId noteId : Nat)
    (now created : Int) (f : UpdateFields) (db db2 : List Note) (m : Note)
    (title content : Option String) (tags : Option (List String))
    (color : Option String) (reminder : Option Int) (freshId : Nat) :
    (trash ownerId noteId now db = .ok (m, db2) →
      m.isTrashed = some true ∧ m.deletedAt = some now ∧ m ∈ db2) ∧
    (update ownerId noteId f db = .ok (m, db2) →
      db2.map Note.deletedAt = db.map Note.deletedAt ∧
      ∃ n0 ∈ db, m = applyUpdate f n0 ∧ m.deletedAt = n0.deletedAt) ∧
    (create ownerId title content tags color reminder created freshId
      db).2.deletedAt = none ∧
    List.Sublist (emptyTrash ownerId db) db ∧
    List.Sublist (purgeExpiredTrash now db) db := by
  refine ⟨?_, ?_, rfl, List.filter_sublist db, List.filter_sublist db⟩
  · intro h
    obtain ⟨n0, hn0, hid, hown, hm, hmem⟩ := trash_ok h
    subst hm
    exact ⟨rfl, rfl, hmem⟩
  · intro h
    obtain ⟨n0, hn0, hid, hown, hm, hmem⟩ := update_ok h
    exact ⟨update_preserves_deletedAt h, n0, hn0, hm, by rw [hm]; rfl⟩

/-- Closed corollary of C3: trashing the concrete active note stamps it;
updating it with an omitted-field request keeps the stamp column
unchanged. -/
theorem c3_trashedAt_owned_by_trash_witness :
    (note0T.isTrashed = some true ∧ note0T.deletedAt = some 5 ∧
      note0T ∈ [note0T]) ∧
    ([note0U].map Note.deletedAt = [note0].map Note.deletedAt ∧
      ∃ n0 ∈ [note0], note0U = applyUpdate emptyFields n0 ∧
        note0U.deletedAt = n0.deletedAt) :=
  ⟨(c3_trashedAt_owned_by_trash 0 1 5 0 emptyFields [note0] [note0T] note0T
      none none none none none 9).1 rfl,
    (c3_trashedAt_owned_by_trash 0 1 5 0 emptyFields [note0] [note0U] note0U
      none none none none none 9).2.1 rfl⟩

/-- Claim C4: a successful update overwrites all seven client fields with
exactly the request values — an omitted request field is stored as
absent — while keeping the deletedAt of the matched note and createdAt. -/
theorem c4_update_full_overwrite (ownerId noteId : Nat) (f : UpdateFields)
    (db db2 : List Note) (m : Note)
    (h : update ownerId noteId f db = .ok (m, db2)) :
    m.title = f.title ∧ m.content = f.content ∧ m.tags = f.tags ∧
    m.color = f.color ∧ m.reminder = f.reminder ∧
    m.isArchived = f.isArchived ∧ m.isTrashed = f.isTrashed ∧
    ∃ n0 ∈ db, n0.id = noteId ∧ n0.userId = ownerId ∧
      m.deletedAt = n0.deletedAt ∧ m.createdAt = n0.createdAt := by
  obtain ⟨n0, hn0, hid, hown, hm, hmem⟩ := update_ok h
  subst hm
  exact ⟨rfl, rfl, rfl, rfl, rfl, rfl, rfl, n0, hn0, hid, hown, rfl, rfl⟩

/-- Closed corollary of C4: updating the concrete note with an
all-omitted request blanks every client field. -/
theorem c4_update_full_overwrite_witness :
    note0U.title = none ∧ note0U.content = none ∧ note0U.tags = none ∧
    note0U.color = none ∧ note0U.reminder = none ∧
    note0U.isArchived = none ∧ note0U.isTrashed = none ∧
    ∃ n0 ∈ [note0], n0.id = 1 ∧ n0.userId = 0 ∧
      note0U.deletedAt = n0.deletedAt ∧ note0U.createdAt = n0.createdAt :=
  c4_update_full_overwrite 0 1 emptyFields [note0] [note0U] note0U rfl

/-- Claim C7: login answers with the same invalid-credentials error both
when no user carries the username and when the user exists but password
verification fails, so the two cases are indistinguishable from the
result. -/
theorem c7_auth_uniform_error (S : HashScheme) (username password : String)
    (db : List User) :
    (db.find? (fun v => decide (v.username = some username)) = none →
      authenticate S username password db = .error .invalidCredentials) ∧
    (∀ u, db.find? (fun v => decide (v.username = some username)) = some u →
      S.verify password u.password = false →
      authenticate S username password db = .error .invalidCredentials) := by
  constructor
  · intro h
    rw [authenticate, h]
  · intro u h hv
    rw [authenticate, h]
    simp [hv]

/-- Closed corollary of C7: an unknown username and a wrong password for
a known user produce the identical error value. -/
theorem c7_auth_uniform_error_witness :
    authenticate idScheme "bob" "pw" [user0] = .error .invalidCredentials ∧
    authenticate idScheme "alice" "wrong" [user0] =
      .error .invalidCredentials :=
  ⟨(c7_auth_uniform_error idScheme "bob" "pw" [user0]).1 rfl,
    (c7_auth_uniform_error idScheme "alice" "wrong" [user0]).2 user0 rfl rfl⟩

/-- The user record produced by registering empty credentials on an empty
store. -/
def userEmpty : User := { id := 0, username := some "", password := "" }

/-- Counterexample to C8 as stated: registering with an empty username
and an empty password succeeds and creates a user record, instead of
failing with a validation error and creating nothing. -/
theorem c8_register_counterexample :
    register idScheme (some "") (some "") [] = .ok ([userEmpty], userEmpty) :=
  rfl

/-- Claim C8 amended: the register handler performs no presence or
emptiness validation. Empty-string username and password are accepted and
a user record is created (only the uniqueness constraint can reject the
insert); only a missing password makes the call fail — at the hashing
step, not with a validation error — and then no user record is
produced. -/
theorem c8_register_no_validation (S : HashScheme) (db : List User)
    (un : Option String) (hfree : ∀ u ∈ db, u.username ≠ some "") :
    (∃ u, register S (some "") (some "") db = .ok (db ++ [u], u) ∧
      u.username = some "") ∧
    register S un none db = .error .hashInputError := by
  constructor
  · refine ⟨{ id := db.length, username := some "", password := S.hash "" },
      ?_, rfl⟩
    have hany : db.any (fun v => decide (v.username = some "")) = false := by
      rw [List.any_eq_false]
      intro u hu
      simpa using hfree u hu
    simp [register, hany]
  · rfl

/-- Closed corollary of the amended C8: on a store holding one user named
alice, empty credentials register a second user whose name is the empty
string, while a request without a password fails at the hashing step. -/
theorem c8_register_no_validation_witness :
    (∃ u, register idScheme (some "") (some "") [user0] =
      .ok ([user0] ++ [u], u) ∧ u.username = some "") ∧
    register idScheme (some "alice") none [user0] =
      .error .hashInputError :=
  c8_register_no_validation idScheme [user0] (some "alice") (by decide)

/-- Claim C9: for a username not yet registered, register followed by
authenticate with the same pair succeeds and returns the identity key of
the record the register call created. -/
theorem c9_register_then_authenticate (S : HashScheme) (un pw : String)
    (db db2 : List User) (u : User)
    (hfresh : ∀ v ∈ db, v.username ≠ some un)
    (hreg : register S (some un) (some pw) db = .ok (db2, u)) :
    authenticate S un pw db2 = .ok u.id := by
  have hany : db.any (fun v => decide (v.username = some un)) = false := by
    rw [List.any_eq_false]
    intro v hv
    simpa using hfresh v hv
  rw [register, hany] at hreg
  simp only [Bool.false_eq_true, if_false, Except.ok.injEq, Prod.mk.injEq]
    at hreg
  obtain ⟨hdb2, hu⟩ := hreg
  subst hdb2
  subst hu
  have hnone : db.find? (fun v => decide (v.username = some un)) = none := by
    rw [List.find?_eq_none]
    intro v hv
    simpa using hfresh v hv
  rw [authenticate, find?_append_none hnone,
    List.find?_cons_of_pos [] (by simp)]
  simp [S.verify_hash]

/-- Closed corollary of C9: registering alice on an empty store and then
logging in with the same pair returns the identity key of the new record. -/
theorem c9_register_then_authenticate_witness :
    authenticate idScheme "alice" "pw" [user0] = .ok 0 :=
  c9_register_then_authenticate idScheme "alice" "pw" [] [user0] user0
    (by simp) rfl

/-- Claim C10: a note trashed through the generic update has no
trashed-at stamp (update never writes one, so a note whose stamp was
absent keeps it absent), and the purge sweep then never deletes it, at
every instant: the age filter does not match an absent stamp. -/
theorem c10_update_trashed_never_purged (ownerId noteId : Nat)
    (f : UpdateFields) (db db2 : List Note) (m : Note) (now : Int)
    (h : update ownerId noteId f db = .ok (m, db2))
    (hnull : ∀ k ∈ db, k.id = noteId → k.deletedAt = none) :
    m.deletedAt = none ∧ m ∈ db2 ∧ m ∈ purgeExpiredTrash now db2 := by
  obtain ⟨n0, hn0, hid, hown, hm, hmem⟩ := update_ok h
  have hd : m.deletedAt = none := by
    rw [hm]
    exact hnull n0 hn0 hid
  refine ⟨hd, hmem, ?_⟩
  rw [purge_mem]
  refine ⟨hmem, ?_⟩
  rintro ⟨-, d, hd2, -⟩
  rw [hd] at hd2
  exact Option.noConfusion hd2

/-- Closed corollary of C10: setting the trashed flag on the concrete
note through update leaves the stamp absent, and the sweep run a
thousand days later still keeps the note. -/
theorem c10_update_trashed_never_purged_witness :
    note0X.deletedAt = none ∧ note0X ∈ [note0X] ∧
    note0X ∈ purgeExpiredTrash (1000 * dayMs) [note0X] :=
  c10_update_trashed_never_purged 0 1 trashFields [note0] [note0X] note0X
    (1000 * dayMs) rfl (by decide)

end Apsona
